import Mathlib

/-!
Verification development for the whatsmeow secure-channel bootstrap:
a shallow embedding of `doHandshake` (handshake.go), the device store
(store/store.go) and the schema migrator (store/sqlstore/upgrade.go),
with theorems settling the specification claims.
-/

/-- Byte strings are lists of naturals (each conceptually < 256). -/
abbrev Bytes := List Nat

/-- Curve25519 keypair: 32-byte public and private parts (util/keys.KeyPair). -/
structure KeyPair where
  pub : Bytes
  priv : Bytes
deriving DecidableEq, Repr

/-- Signed prekey: keypair, 24-bit id, 64-byte signature (util/keys.PreKey). -/
structure PreKey where
  keyPair : KeyPair
  keyID : Nat
  signature : Bytes
deriving DecidableEq, Repr

/-- The fields of store.Device touched by doHandshake.  A `none` models a Go
nil pointer / nil slice; RegistrationID 0 models the unset uint32. -/
structure DeviceStore where
  noiseKey : Option KeyPair
  identityKey : Option KeyPair
  signedPreKey : Option PreKey
  registrationID : Nat
  advSecretKey : Option Bytes
deriving DecidableEq, Repr

/-- The ServerHello part of the handshake response.  `ephemeral` is the result
of GetEphemeral (empty when absent, like a nil Go slice after Get); `static`
and `payload` are `none` exactly when the Go getters return nil. -/
structure ServerHello where
  ephemeral : Bytes
  static : Option Bytes
  payload : Option Bytes
deriving DecidableEq, Repr

/-- Outer noise certificate envelope (waProto.NoiseCertificate). -/
structure NoiseCert where
  details : Option Bytes
  signature : Option Bytes
deriving DecidableEq, Repr

/-- Parsed certificate details (waProto.NoiseCertificateDetails); `key` is
GetKey, empty when absent. -/
structure NoiseCertDetails where
  key : Bytes
deriving DecidableEq, Repr

/-- One constructor per `fmt.Errorf` site in doHandshake, in source order;
the String argument is the wrapped underlying error. -/
inductive HSError where
  | marshalClientHello (e : String)
  | sendHandshakeMessage (e : String)
  | unmarshalHandshakeResponse (e : String)
  | missingPartsOfHandshakeResponse
  | mixServerEphemeral (e : String)
  | decryptServerStatic (e : String)
  | unexpectedServerStaticLength (n : Nat)
  | mixServerStatic (e : String)
  | decryptCertificate (e : String)
  | unmarshalCertificate (e : String)
  | missingPartsOfCertificate
  | unmarshalCertDetails (e : String)
  | certKeyMismatch
  | mixNoisePrivate (e : String)
  | marshalClientFinishPayload (e : String)
  | marshalClientFinish (e : String)
  | sendClientFinish (e : String)
  | finishNoiseSocket (e : String)
  | generateAdvSecret (e : String)
deriving DecidableEq, Repr

/-- Observable events of a doHandshake run, recorded in call order. -/
inductive HSEvent where
  | authenticate (b : Bytes)
  | mixSharedSecret (priv pub : Bytes)
  | genNoiseKey
  | encryptStatic
  | genIdentityKey
  | genSignedPreKey
  | genRegistrationID
  | encryptPayload
  | sendClientFinish
  | finish
  | genAdvSecret
deriving DecidableEq, BEq, Repr

/-- Environment supplying the outcomes of every external operation doHandshake
performs: protobuf marshalling, the frame socket, the noise-handshake crypto
(state type `σ` threaded exactly as the Go NoiseHandshake object is), key
generation and randomness.  `ν` is the type of the finished noise socket. -/
structure HandshakeEnv (ν σ : Type) where
  start : σ
  authenticate : σ → Bytes → σ
  marshalClientHello : Bytes → Except String Bytes
  sendAndReceive : Bytes → Except String Bytes
  unmarshalResponse : Bytes → Except String ServerHello
  mix : σ → Bytes → Bytes → Except String σ
  decrypt : σ → Bytes → Except String (Bytes × σ)
  encrypt : σ → Bytes → Bytes × σ
  unmarshalCert : Bytes → Except String NoiseCert
  unmarshalCertDetails : Bytes → Except String NoiseCertDetails
  newNoiseKey : KeyPair
  newIdentityKey : KeyPair
  createSignedPreKey : KeyPair → Nat → PreKey
  randRegistrationID : Nat
  marshalClientPayload : DeviceStore → Except String Bytes
  marshalClientFinish : Bytes → Bytes → Except String Bytes
  sendFrame : Bytes → Except String Unit
  finish : σ → Except String ν

  advRandom : Except String Bytes

/-- Result of a doHandshake run: final store fields, the client socket field
(`none` unless `cli.socket = ns` was reached), the event trace, and the
returned error if any. -/
structure HSResult (ν : Type) where
  store : DeviceStore
  socket : Option ν
  events : List HSEvent
  error : Option HSError
deriving Repr

/-- Tail of doHandshake after nh.Finish succeeded with socket `ns`: the lazy
generation of the adv secret key, then the assignment cli.socket = ns.  On a
rand failure the zeroed 32-byte buffer already assigned by make remains. -/
def advFinish (env : HandshakeEnv ν σ) (store4 : DeviceStore) (socket : Option ν)
    (ns : ν) (ev : List HSEvent) : HSResult ν :=
  match store4.advSecretKey with
  | some _ => ⟨store4, some ns, ev, none⟩
  | none =>
    match env.advRandom with
    | .error e =>
        ⟨{store4 with advSecretKey := some (List.replicate 32 0)},
         socket, ev ++ [.genAdvSecret], some (.generateAdvSecret e)⟩
    | .ok b => ⟨{store4 with advSecretKey := some b}, some ns, ev ++ [.genAdvSecret], none⟩

/-- Shallow embedding of Client.doHandshake (handshake.go), statement by
statement: same call order, same error returns, same lazy generation of
missing key material, with the event trace recording each external call. -/
def doHandshake (env : HandshakeEnv ν σ) (ephemeralKP : KeyPair)
    (store : DeviceStore) (socket : Option ν) : HSResult ν :=
  let ns1 := env.authenticate env.start ephemeralKP.pub
  let ev1 : List HSEvent := [.authenticate ephemeralKP.pub]
  match env.marshalClientHello ephemeralKP.pub with
  | .error e => ⟨store, socket, ev1, some (.marshalClientHello e)⟩
  | .ok data =>
  match env.sendAndReceive data with
  | .error e => ⟨store, socket, ev1, some (.sendHandshakeMessage e)⟩
  | .ok resp =>
  match env.unmarshalResponse resp with
  | .error e => ⟨store, socket, ev1, some (.unmarshalHandshakeResponse e)⟩
  | .ok hello =>
  if hello.ephemeral.length ≠ 32 ∨ hello.static = none ∨ hello.payload = none then
    ⟨store, socket, ev1, some .missingPartsOfHandshakeResponse⟩
  else
    let serverEphemeral := hello.ephemeral
    let serverStaticCiphertext := hello.static.getD []
    let certificateCiphertext := hello.payload.getD []
    let ns2 := env.authenticate ns1 serverEphemeral
    let ev3 := ev1 ++ [.authenticate serverEphemeral,
                       .mixSharedSecret ephemeralKP.priv serverEphemeral]
    match env.mix ns2 ephemeralKP.priv serverEphemeral with
    | .error e => ⟨store, socket, ev3, some (.mixServerEphemeral e)⟩
    | .ok ns3 =>
    match env.decrypt ns3 serverStaticCiphertext with
    | .error e => ⟨store, socket, ev3, some (.decryptServerStatic e)⟩
    | .ok (staticDecrypted, ns4) =>
    if staticDecrypted.length ≠ 32 then
      ⟨store, socket, ev3, some (.unexpectedServerStaticLength staticDecrypted.length)⟩
    else
      let ev4 := ev3 ++ [.mixSharedSecret ephemeralKP.priv staticDecrypted]
      match env.mix ns4 ephemeralKP.priv staticDecrypted with
      | .error e => ⟨store, socket, ev4, some (.mixServerStatic e)⟩
      | .ok ns5 =>
      match env.decrypt ns5 certificateCiphertext with
      | .error e => ⟨store, socket, ev4, some (.decryptCertificate e)⟩
      | .ok (certDecrypted, ns6) =>
      match env.unmarshalCert certDecrypted with
      | .error e => ⟨store, socket, ev4, some (.unmarshalCertificate e)⟩
      | .ok cert =>
      if cert.details = none ∨ cert.signature = none then
        ⟨store, socket, ev4, some .missingPartsOfCertificate⟩
      else
        match env.unmarshalCertDetails (cert.details.getD []) with
        | .error e => ⟨store, socket, ev4, some (.unmarshalCertDetails e)⟩
        | .ok certDetails =>
        if certDetails.key ≠ staticDecrypted then
          ⟨store, socket, ev4, some .certKeyMismatch⟩
        else
          let nk := store.noiseKey.getD env.newNoiseKey
          let store1 := {store with noiseKey := some nk}
          let ev5 := ev4 ++ (if store.noiseKey = none then [.genNoiseKey] else [])
          let enc1 := env.encrypt ns6 nk.pub
          let encryptedPubkey := enc1.1
          let ev7 := ev5 ++ [.encryptStatic, .mixSharedSecret nk.priv serverEphemeral]
          match env.mix enc1.2 nk.priv serverEphemeral with
          | .error e => ⟨store1, socket, ev7, some (.mixNoisePrivate e)⟩
          | .ok ns8 =>
          let ik := store1.identityKey.getD env.newIdentityKey
          let store2 := {store1 with identityKey := some ik}
          let ev8 := ev7 ++ (if store1.identityKey = none then [.genIdentityKey] else [])
          let spk := store2.signedPreKey.getD (env.createSignedPreKey ik 1)
          let store3 := {store2 with signedPreKey := some spk}
          let ev9 := ev8 ++ (if store2.signedPreKey = none then [.genSignedPreKey] else [])
          let rid := if store3.registrationID = 0 then env.randRegistrationID
                     else store3.registrationID
          let store4 := {store3 with registrationID := rid}
          let ev10 := ev9 ++ (if store3.registrationID = 0 then [.genRegistrationID] else [])
          match env.marshalClientPayload store4 with
          | .error e => ⟨store4, socket, ev10, some (.marshalClientFinishPayload e)⟩
          | .ok payloadBytes =>
          let enc2 := env.encrypt ns8 payloadBytes
          let ev11 := ev10 ++ [.encryptPayload]
          match env.marshalClientFinish encryptedPubkey enc2.1 with
          | .error e => ⟨store4, socket, ev11, some (.marshalClientFinish e)⟩
          | .ok data2 =>
          let ev12 := ev11 ++ [.sendClientFinish]
          match env.sendFrame data2 with
          | .error e => ⟨store4, socket, ev12, some (.sendClientFinish e)⟩
          | .ok _ =>
          let ev13 := ev12 ++ [.finish]
          match env.finish enc2.2 with
          | .error e => ⟨store4, socket, ev13, some (.finishNoiseSocket e)⟩
          | .ok ns => advFinish env store4 socket ns ev13

/-- Errors raised at or before the decryption of the server static
ciphertext (the length check included). -/
def HSError.isEarly : HSError → Bool
  | .marshalClientHello _ => true
  | .sendHandshakeMessage _ => true
  | .unmarshalHandshakeResponse _ => true
  | .missingPartsOfHandshakeResponse => true
  | .mixServerEphemeral _ => true
  | .decryptServerStatic _ => true
  | .unexpectedServerStaticLength _ => true
  | _ => false

/-- The store after the lazy-generation block of doHandshake: the noise key,
identity key, signed prekey and registration id are filled in (from the
environment) exactly when missing; the adv secret is untouched there. -/
def materialized (env : HandshakeEnv ν σ) (store : DeviceStore) : DeviceStore :=
  let nk := store.noiseKey.getD env.newNoiseKey
  let ik := store.identityKey.getD env.newIdentityKey
  let spk := store.signedPreKey.getD (env.createSignedPreKey ik 1)
  let rid := if store.registrationID = 0 then env.randRegistrationID
             else store.registrationID
  ⟨some nk, some ik, some spk, rid, store.advSecretKey⟩

/-- The event trace of a run that reaches nh.Finish, before the adv-secret
tail. -/
def successEvents (env : HandshakeEnv ν σ) (kp : KeyPair) (store : DeviceStore)
    (hello : ServerHello) (sd : Bytes) : List HSEvent :=
  [.authenticate kp.pub, .authenticate hello.ephemeral,
   .mixSharedSecret kp.priv hello.ephemeral,
   .mixSharedSecret kp.priv sd]
  ++ (if store.noiseKey = none then [.genNoiseKey] else [])
  ++ [.encryptStatic,
      .mixSharedSecret (store.noiseKey.getD env.newNoiseKey).priv hello.ephemeral]
  ++ (if store.identityKey = none then [.genIdentityKey] else [])
  ++ (if store.signedPreKey = none then [.genSignedPreKey] else [])
  ++ (if store.registrationID = 0 then [.genRegistrationID] else [])
  ++ [.encryptPayload, .sendClientFinish, .finish]

/-! ## Schema migrator (store/sqlstore/upgrade.go) -/

/-- Database state seen by the migrator: the schema contents (abstract type
`α`, transformed by the migration steps), the single row of
whatsmeow_version (`none`: no scannable row), and whether that table
exists. -/
structure MigDB (α : Type) where
  schema : α
  versionRow : Option Nat
  versionTableExists : Bool
deriving DecidableEq, Repr

/-- Outcomes of the SQL statements the migrator itself issues (everything
except the steps): per-iteration Begin/setVersion/Commit results and the
CREATE TABLE IF NOT EXISTS of getVersion. -/
structure MigEnv where
  createTableFails : Bool
  beginFails : Nat → Bool
  setVersionFails : Nat → Bool
  commitFails : Nat → Bool

/-- Errors a migration run can return, tagged with the step index. -/
inductive MigErr where
  | createVersionTable
  | beginTx (i : Nat)
  | step (i : Nat) (e : String)
  | setVersion (i : Nat)
  | commit (i : Nat)
deriving DecidableEq, Repr

/-- Embedding of Container.getVersion: create the version table if missing
(fallible), default the version to 0, and overwrite it from the row when one
scans; a scan failure is ignored. -/
def getVersion (env : MigEnv) (c : MigDB α) : MigDB α × Except MigErr Nat :=
  if env.createTableFails then (c, .error .createVersionTable)
  else ({c with versionTableExists := true},
        .ok (match c.versionRow with | some v => v | none => 0))

/-- Embedding of the loop of Container.Upgrade.  The Go loop
`for ; version < len(Upgrades); version++` applies Upgrades[version] for
every pending index; it is embedded structurally as a walk over the list of
pending steps (`steps.drop version`), carrying the version counter.  Per
step: begin a transaction, apply the step to the schema, write the version
counter to index+1 (setVersion), commit.  A step failure rolls the
transaction back (database unchanged); setVersion/commit failures leave the
transaction uncommitted (database unchanged).  Returns the final database,
the list of committed step indices, and the error if any. -/
def upgradeLoop (env : MigEnv) : Nat → List (α → Except String α) → MigDB α →
    MigDB α × List Nat × Option MigErr
  | _, [], c => (c, [], none)
  | version, migrateFunc :: rest, c =>
    if env.beginFails version then (c, [], some (.beginTx version))
    else
      match migrateFunc c.schema with
      | .error e => (c, [], some (.step version e))
      | .ok schema2 =>
        if env.setVersionFails version then (c, [], some (.setVersion version))
        else if env.commitFails version then (c, [], some (.commit version))
        else
          let c2 : MigDB α :=
            {schema := schema2, versionRow := some (version + 1),
             versionTableExists := c.versionTableExists}
          let r := upgradeLoop env (version + 1) rest c2
          (r.1, version :: r.2.1, r.2.2)

/-- Embedding of Container.Upgrade: read the current version, then run every
pending step (`steps.drop v` enumerates Upgrades[v], Upgrades[v+1], ...). -/
def upgrade (env : MigEnv) (steps : List (α → Except String α)) (c : MigDB α) :
    MigDB α × List Nat × Option MigErr :=
  match getVersion env c with
  | (c1, .error .createVersionTable) => (c1, [], some .createVersionTable)
  | (c1, .error e) => (c1, [], some e)
  | (c1, .ok v) => upgradeLoop env v (steps.drop v) c1

/-! ## Persisted schema (the DDL of Upgrades[0]) -/

/-- Table identities of the whatsmeow schema. -/
inductive TblName where
  | device
  | identityKeys
  | preKeys
  | sessions
  | senderKeys
  | appStateSyncKeys
  | appStateVersion
  | appStateMutationMacs
  | contacts
  | chatSettings
deriving DecidableEq, Repr

/-- SQL column types appearing in the DDL. -/
inductive SqlType where
  | text
  | bytea
  | bigint
  | integer
  | boolean
deriving DecidableEq, Repr

/-- A column with its NOT NULL flag and CHECK constraints: `lengthCheck n`
models CHECK ( length(col) = n ), `rangeCheck (lo, hi)` models
CHECK ( col >= lo AND col < hi ). -/
structure Column where
  name : String
  ty : SqlType
  notNull : Bool
  lengthCheck : Option Nat
  rangeCheck : Option (Int × Int)
deriving DecidableEq, Repr

/-- A foreign-key declaration. -/
structure ForeignKey where
  cols : List String
  parentTable : TblName
  parentCols : List String
  onDeleteCascade : Bool
deriving DecidableEq, Repr

/-- A table of the persisted schema. -/
structure Table where
  name : TblName
  columns : List Column
  primaryKey : List String
  foreignKeys : List ForeignKey
deriving DecidableEq, Repr

abbrev Schema := List Table

/-- Plain column without constraints. -/
def col (n : String) (t : SqlType) : Column := ⟨n, t, false, none, none⟩

/-- NOT NULL column. -/
def colNN (n : String) (t : SqlType) : Column := ⟨n, t, true, none, none⟩

/-- NOT NULL bytea column with an exact-length CHECK. -/
def colLen (n : String) (len : Nat) : Column := ⟨n, .bytea, true, some len, none⟩

/-- Nullable bytea column with an exact-length CHECK. -/
def colLenNullable (n : String) (len : Nat) : Column := ⟨n, .bytea, false, some len, none⟩

/-- whatsmeow_device (upgrade.go, first CREATE TABLE). -/
def deviceTable : Table :=
  { name := .device
    columns :=
      [⟨"jid", .text, false, none, none⟩,
       ⟨"registration_id", .bigint, true, none, some (0, 4294967296)⟩,
       colLen "noise_key" 32,
       colLen "identity_key" 32,
       colLen "signed_pre_key" 32,
       ⟨"signed_pre_key_id", .integer, true, none, some (0, 16777216)⟩,
       colLen "signed_pre_key_sig" 64,
       colNN "adv_key" .bytea,
       colNN "adv_details" .bytea,
       colLen "adv_account_sig" 64,
       colLen "adv_device_sig" 64,
       colNN "platform" .text,
       colNN "business_name" .text,
       colNN "push_name" .text]
    primaryKey := ["jid"]
    foreignKeys := [] }

/-- whatsmeow_identity_keys. -/
def identityKeysTable : Table :=
  { name := .identityKeys
    columns := [col "our_jid" .text, col "their_id" .text, colLen "identity" 32]
    primaryKey := ["our_jid", "their_id"]
    foreignKeys := [⟨["our_jid"], .device, ["jid"], true⟩] }

/-- whatsmeow_pre_keys. -/
def preKeysTable : Table :=
  { name := .preKeys
    columns :=
      [col "jid" .text,
       ⟨"key_id", .integer, false, none, some (0, 16777216)⟩,
       colLen "key" 32,
       colNN "uploaded" .boolean]
    primaryKey := ["jid", "key_id"]
    foreignKeys := [⟨["jid"], .device, ["jid"], true⟩] }

/-- whatsmeow_sessions. -/
def sessionsTable : Table :=
  { name := .sessions
    columns := [col "our_jid" .text, col "their_id" .text, col "session" .bytea]
    primaryKey := ["our_jid", "their_id"]
    foreignKeys := [⟨["our_jid"], .device, ["jid"], true⟩] }

/-- whatsmeow_sender_keys. -/
def senderKeysTable : Table :=
  { name := .senderKeys
    columns :=
      [col "our_jid" .text, col "chat_id" .text, col "sender_id" .text,
       colNN "sender_key" .bytea]
    primaryKey := ["our_jid", "chat_id", "sender_id"]
    foreignKeys := [⟨["our_jid"], .device, ["jid"], true⟩] }

/-- whatsmeow_app_state_sync_keys. -/
def appStateSyncKeysTable : Table :=
  { name := .appStateSyncKeys
    columns :=
      [col "jid" .text, col "key_id" .bytea, colNN "key_data" .bytea,
       colNN "timestamp" .bigint, colNN "fingerprint" .bytea]
    primaryKey := ["jid", "key_id"]
    foreignKeys := [⟨["jid"], .device, ["jid"], true⟩] }

/-- whatsmeow_app_state_version. -/
def appStateVersionTable : Table :=
  { name := .appStateVersion
    columns :=
      [col "jid" .text, col "name" .text, colNN "version" .bigint,
       colLen "hash" 128]
    primaryKey := ["jid", "name"]
    foreignKeys := [⟨["jid"], .device, ["jid"], true⟩] }

/-- whatsmeow_app_state_mutation_macs; its foreign key points at
whatsmeow_app_state_version, making device deletion cascade transitively. -/
def appStateMutationMacsTable : Table :=
  { name := .appStateMutationMacs
    columns :=
      [col "jid" .text, col "name" .text, col "version" .bigint,
       colLenNullable "index_mac" 32,
       colLen "value_mac" 32]
    primaryKey := ["jid", "name", "version", "index_mac"]
    foreignKeys := [⟨["jid", "name"], .appStateVersion, ["jid", "name"], true⟩] }

/-- whatsmeow_contacts. -/
def contactsTable : Table :=
  { name := .contacts
    columns :=
      [col "our_jid" .text, col "their_jid" .text, col "first_name" .text,
       col "full_name" .text, col "push_name" .text, col "business_name" .text]
    primaryKey := ["our_jid", "their_jid"]
    foreignKeys := [⟨["our_jid"], .device, ["jid"], true⟩] }

/-- whatsmeow_chat_settings. -/
def chatSettingsTable : Table :=
  { name := .chatSettings
    columns :=
      [col "our_jid" .text, col "chat_jid" .text, colNN "muted_until" .bigint,
       colNN "pinned" .boolean, colNN "archived" .boolean]
    primaryKey := ["our_jid", "chat_jid"]
    foreignKeys := [⟨["our_jid"], .device, ["jid"], true⟩] }

/-- CREATE TABLE: fails when a table of that name already exists. -/
def addTable (s : Schema) (t : Table) : Except String Schema :=
  if s.any (fun t2 => t2.name = t.name) then .error "table exists"
  else .ok (s ++ [t])

/-- Embedding of Upgrades[0]: creates the ten tables in source order.  The
source checks the error of every Exec except the whatsmeow_identity_keys
one, whose error variable is immediately overwritten by the next Exec, so a
failure there is swallowed and execution continues on the unchanged state. -/
def upgradeV1 (s : Schema) : Except String Schema :=
  match addTable s deviceTable with
  | .error e => .error e
  | .ok s1 =>
    let s2 := ((addTable s1 identityKeysTable).toOption).getD s1
    match addTable s2 preKeysTable with
    | .error e => .error e
    | .ok s3 =>
    match addTable s3 sessionsTable with
    | .error e => .error e
    | .ok s4 =>
    match addTable s4 senderKeysTable with
    | .error e => .error e
    | .ok s5 =>
    match addTable s5 appStateSyncKeysTable with
    | .error e => .error e
    | .ok s6 =>
    match addTable s6 appStateVersionTable with
    | .error e => .error e
    | .ok s7 =>
    match addTable s7 appStateMutationMacsTable with
    | .error e => .error e
    | .ok s8 =>
    match addTable s8 contactsTable with
    | .error e => .error e
    | .ok s9 =>
    match addTable s9 chatSettingsTable with
    | .error e => .error e
    | .ok s10 => .ok s10

/-- The Upgrades list of store/sqlstore/upgrade.go (one released step). -/
def Upgrades : List (Schema → Except String Schema) := [upgradeV1]

/-- The schema produced by running Upgrades[0] on an empty database. -/
def whatsmeowSchema : Schema :=
  [deviceTable, identityKeysTable, preKeysTable, sessionsTable, senderKeysTable,
   appStateSyncKeysTable, appStateVersionTable, appStateMutationMacsTable,
   contactsTable, chatSettingsTable]

/-! ## Row-level semantics: write-time checks and cascade deletion -/

/-- An SQL value. -/
inductive SqlValue where
  | null
  | text (s : String)
  | bytes (b : Bytes)
  | int (n : Int)
  | bool (b : Bool)
deriving DecidableEq, Repr

/-- A row: column name to value bindings. -/
abbrev Row := List (String × SqlValue)

/-- Value of a column in a row (`none` when the column is absent). -/
def getVal (r : Row) (c : String) : Option SqlValue :=
  (r.find? (fun p => p.1 = c)).map (fun p => p.2)

/-- Does a value satisfy one column's constraints (NOT NULL, exact-length
CHECK, range CHECK)?  SQL CHECK constraints pass on NULL. -/
def checkColumn (c : Column) (v : SqlValue) : Bool :=
  match v with
  | .null => !c.notNull
  | .bytes b => match c.lengthCheck with
                | some n => decide (b.length = n)
                | none => true
  | .int n => match c.rangeCheck with
              | some (lo, hi) => decide (lo ≤ n ∧ n < hi)
              | none => true
  | _ => true

/-- Write-time admissibility of a row for a table: every declared column's
constraint holds (an absent binding counts as NULL). -/
def checkRow (t : Table) (r : Row) : Bool :=
  t.columns.all (fun c =>
    match getVal r c.name with
    | none => !c.notNull
    | some v => checkColumn c v)

/-- A database instance: the rows of each table. -/
abbrev Inst := TblName → List Row

/-- Relational semantics of ON DELETE CASCADE for a declared schema: delete
the rows of `tbl` matching `victim`, then, for every foreign key of any
table that references `tbl` with cascade, recursively delete the child rows
whose foreign-key columns equal the referenced columns of a deleted row.
`fuel` bounds the recursion depth (3 suffices for this schema). -/
def cascadeDelete (s : Schema) : Nat → Inst → TblName → (Row → Bool) → Inst
  | 0, inst, _, _ => inst
  | fuel + 1, inst, tbl, victim =>
    let victims := (inst tbl).filter victim
    let inst1 : Inst := fun n => if n = tbl then (inst n).filter (fun r => !victim r) else inst n
    s.foldl (fun acc t =>
      t.foreignKeys.foldl (fun acc2 fk =>
        if fk.onDeleteCascade && decide (fk.parentTable = tbl) then
          cascadeDelete s fuel acc2 t.name
            (fun r => victims.any (fun v =>
              decide (fk.cols.map (getVal r) = fk.parentCols.map (getVal v))))
        else acc2) acc) inst1

/-- Deleting a device row by jid, cascading through the declared foreign
keys of the whatsmeow schema. -/
def deleteDevice (inst : Inst) (jid : SqlValue) : Inst :=
  cascadeDelete whatsmeowSchema 3 inst .device
    (fun r => decide (getVal r "jid" = some jid))

/-! ## Concrete instances used by the witnesses and counterexamples -/

/-- 32 zero bytes. -/
def zeros32 : Bytes := List.replicate 32 0

/-- A store with nothing generated yet (fresh device). -/
def emptyStore : DeviceStore := ⟨none, none, none, 0, none⟩

/-- A fully materialized store. -/
def fullStore : DeviceStore :=
  ⟨some ⟨List.replicate 32 11, List.replicate 32 12⟩,
   some ⟨List.replicate 32 13, List.replicate 32 14⟩,
   some ⟨⟨List.replicate 32 15, List.replicate 32 16⟩, 1, List.replicate 64 0⟩,
   5, some (List.replicate 32 17)⟩

/-- A client ephemeral keypair for concrete runs. -/
def testKP : KeyPair := ⟨List.replicate 32 21, List.replicate 32 22⟩

/-- A benign environment under which the handshake completes: the server
static decrypts to 32 bytes and the certificate certifies exactly that key. -/
def testEnv : HandshakeEnv Unit Unit where
  start := ()
  authenticate := fun _ _ => ()
  marshalClientHello := fun _ => .ok [1]
  sendAndReceive := fun _ => .ok [2]
  unmarshalResponse := fun _ => .ok ⟨zeros32, some [3], some [4]⟩
  mix := fun _ _ _ => .ok ()
  decrypt := fun _ _ => .ok (zeros32, ())
  encrypt := fun _ b => (b, ())
  unmarshalCert := fun _ => .ok ⟨some [5], some [6]⟩
  unmarshalCertDetails := fun _ => .ok ⟨zeros32⟩
  newNoiseKey := ⟨List.replicate 32 1, List.replicate 32 2⟩
  newIdentityKey := ⟨List.replicate 32 3, List.replicate 32 4⟩
  createSignedPreKey := fun kp i => ⟨kp, i, List.replicate 64 7⟩
  randRegistrationID := 7
  marshalClientPayload := fun _ => .ok [8]
  marshalClientFinish := fun _ _ => .ok [9]
  sendFrame := fun _ => .ok ()
  finish := fun _ => .ok ()
  advRandom := .ok (List.replicate 32 9)

/-- testEnv, except the certificate certifies a key different from the
decrypted server static. -/
def mismatchEnv : HandshakeEnv Unit Unit :=
  {testEnv with unmarshalCertDetails := fun _ => .ok ⟨[7]⟩}

/-- testEnv, except the server hello carries an empty ephemeral key. -/
def shortEphEnv : HandshakeEnv Unit Unit :=
  {testEnv with unmarshalResponse := fun _ => .ok ⟨[], some [3], some [4]⟩}

/-- testEnv, except the frame exchange fails. -/
def failSendEnv : HandshakeEnv Unit Unit :=
  {testEnv with sendAndReceive := fun _ => .error "io"}

/-- A complete concrete run from a fresh device under testEnv. -/
def emptyRun : HSResult Unit := doHandshake testEnv testKP emptyStore none

/-! ## Auxiliary migration definitions -/

/-- Sequential application of a list of migration steps to a schema,
stopping at the first failure. -/
def applySteps : List (α → Except String α) → α → Except String α
  | [], s => .ok s
  | f :: rest, s =>
    match f s with
    | .error e => .error e
    | .ok s2 => applySteps rest s2

/-- Migration environment in which Begin/setVersion/Commit and the version
table creation always succeed. -/
def noFailEnv : MigEnv := ⟨false, fun _ => false, fun _ => false, fun _ => false⟩

/-- A migration step that always fails. -/
def failingStep : Schema → Except String Schema := fun _ => .error "boom"

/-- Upgrades followed by a released-later step that fails. -/
def twoSteps : List (Schema → Except String Schema) := [upgradeV1, failingStep]

/-- A fresh database: no tables, no version row. -/
def emptyMigDB : MigDB Schema := ⟨[], none, false⟩

/-- A database holding the full schema but no version row. -/
def noRowDB : MigDB Schema := ⟨whatsmeowSchema, none, true⟩

/-! ## Auxiliary schema definitions -/

/-- Does column `c` of table `tbl` carry CHECK ( length(c) = n )? -/
def hasLenCheck (s : Schema) (tbl : TblName) (c : String) (n : Nat) : Bool :=
  s.any (fun t => decide (t.name = tbl) &&
    t.columns.any (fun co => decide (co.name = c) && decide (co.lengthCheck = some n)))

/-- The declared length CHECK of a column, `some none` meaning the column
exists with no length constraint. -/
def lenCheckOf (s : Schema) (tbl : TblName) (c : String) : Option (Option Nat) :=
  match s.find? (fun t => t.name = tbl) with
  | none => none
  | some t => (t.columns.find? (fun co => co.name = c)).map (fun co => co.lengthCheck)

/-- A device row with every length-checked field of the right size and a
5-byte adv secret. -/
def shortAdvRow : Row :=
  [("jid", .text "a@s.whatsapp.net"),
   ("registration_id", .int 77),
   ("noise_key", .bytes zeros32),
   ("identity_key", .bytes zeros32),
   ("signed_pre_key", .bytes zeros32),
   ("signed_pre_key_id", .int 1),
   ("signed_pre_key_sig", .bytes (List.replicate 64 0)),
   ("adv_key", .bytes [1, 2, 3, 4, 5]),
   ("adv_details", .bytes [6]),
   ("adv_account_sig", .bytes (List.replicate 64 0)),
   ("adv_device_sig", .bytes (List.replicate 64 0)),
   ("platform", .text ""),
   ("business_name", .text ""),
   ("push_name", .text "")]

/-- The same row with a 5-byte noise key instead. -/
def shortNoiseRow : Row :=
  [("jid", .text "a@s.whatsapp.net"),
   ("registration_id", .int 77),
   ("noise_key", .bytes [1, 2, 3, 4, 5]),
   ("identity_key", .bytes zeros32),
   ("signed_pre_key", .bytes zeros32),
   ("signed_pre_key_id", .int 1),
   ("signed_pre_key_sig", .bytes (List.replicate 64 0)),
   ("adv_key", .bytes zeros32),
   ("adv_details", .bytes [6]),
   ("adv_account_sig", .bytes (List.replicate 64 0)),
   ("adv_device_sig", .bytes (List.replicate 64 0)),
   ("platform", .text ""),
   ("business_name", .text ""),
   ("push_name", .text "")]

/-- A small database instance: device A with dependent rows in every table,
plus an unrelated device B. -/
def c9Inst : Inst := fun t =>
  match t with
  | .device => [[("jid", SqlValue.text "A")], [("jid", SqlValue.text "B")]]
  | .identityKeys => [[("our_jid", SqlValue.text "A"), ("their_id", SqlValue.text "p")],
                      [("our_jid", SqlValue.text "B")]]
  | .preKeys => [[("jid", SqlValue.text "A"), ("key_id", SqlValue.int 1)]]
  | .sessions => [[("our_jid", SqlValue.text "A"), ("their_id", SqlValue.text "p")]]
  | .senderKeys => [[("our_jid", SqlValue.text "A"), ("chat_id", SqlValue.text "g")]]
  | .appStateSyncKeys => [[("jid", SqlValue.text "A"), ("key_id", SqlValue.bytes [1])]]
  | .appStateVersion => [[("jid", SqlValue.text "A"), ("name", SqlValue.text "crit")],
                         [("jid", SqlValue.text "B"), ("name", SqlValue.text "n")]]
  | .appStateMutationMacs => [[("jid", SqlValue.text "A"), ("name", SqlValue.text "crit"),
                               ("version", SqlValue.int 3)],
                              [("jid", SqlValue.text "B"), ("name", SqlValue.text "n")]]
  | .contacts => [[("our_jid", SqlValue.text "A"), ("their_jid", SqlValue.text "p")]]
  | .chatSettings => [[("our_jid", SqlValue.text "A"), ("chat_jid", SqlValue.text "g")]]

/-! ## Theorems -/

/-- Master lemma: when every external operation succeeds and every validation
passes, doHandshake runs to the adv-secret tail with the materialized store
and the canonical event trace. -/
theorem doHandshake_success
    (env : HandshakeEnv ν σ) (kp : KeyPair) (store : DeviceStore) (socket : Option ν)
    (d r sd certD payloadBytes data2 : Bytes) (hello : ServerHello)
    (ns3 ns4 ns5 ns6 ns8 : σ) (cert : NoiseCert) (cd : NoiseCertDetails) (ns : ν)
    (h1 : env.marshalClientHello kp.pub = .ok d)
    (h2 : env.sendAndReceive d = .ok r)
    (h3 : env.unmarshalResponse r = .ok hello)
    (h4 : ¬(hello.ephemeral.length ≠ 32 ∨ hello.static = none ∨ hello.payload = none))
    (h5 : env.mix (env.authenticate (env.authenticate env.start kp.pub) hello.ephemeral)
            kp.priv hello.ephemeral = .ok ns3)
    (h6 : env.decrypt ns3 (hello.static.getD []) = .ok (sd, ns4))
    (h7 : ¬ sd.length ≠ 32)
    (h8 : env.mix ns4 kp.priv sd = .ok ns5)
    (h9 : env.decrypt ns5 (hello.payload.getD []) = .ok (certD, ns6))
    (h10 : env.unmarshalCert certD = .ok cert)
    (h11 : ¬(cert.details = none ∨ cert.signature = none))
    (h12 : env.unmarshalCertDetails (cert.details.getD []) = .ok cd)
    (h13 : ¬ cd.key ≠ sd)
    (h14 : env.mix (env.encrypt ns6 (store.noiseKey.getD env.newNoiseKey).pub).2
             (store.noiseKey.getD env.newNoiseKey).priv hello.ephemeral = .ok ns8)
    (h15 : env.marshalClientPayload (materialized env store) = .ok payloadBytes)
    (h16 : env.marshalClientFinish (env.encrypt ns6 (store.noiseKey.getD env.newNoiseKey).pub).1
             (env.encrypt ns8 payloadBytes).1 = .ok data2)
    (h17 : env.sendFrame data2 = .ok ())
    (h18 : env.finish (env.encrypt ns8 payloadBytes).2 = .ok ns) :
    doHandshake env kp store socket =
      advFinish env (materialized env store) socket ns
        (successEvents env kp store hello sd) := by
  simp only [doHandshake, h1, h2, h3, h5, h6, h8, h9, h10, h12]
  rw [if_neg h4, if_neg h7, if_neg h11, if_neg h13]
  simp only [materialized] at h15 h16
  simp only [h14, h15, h16, h17, h18]
  simp [successEvents, materialized]

/-- C7: doHandshake validates the shape of the server handshake response —
when the ephemeral is not exactly 32 bytes, or the static ciphertext or the
certificate ciphertext is absent, it returns the malformed-response error,
leaving both the store and the socket untouched. -/
theorem c7_response_shape_validation
    (env : HandshakeEnv ν σ) (kp : KeyPair) (store : DeviceStore) (socket : Option ν)
    (d r : Bytes) (hello : ServerHello)
    (h1 : env.marshalClientHello kp.pub = .ok d)
    (h2 : env.sendAndReceive d = .ok r)
    (h3 : env.unmarshalResponse r = .ok hello)
    (h4 : hello.ephemeral.length ≠ 32 ∨ hello.static = none ∨ hello.payload = none) :
    (doHandshake env kp store socket).error = some .missingPartsOfHandshakeResponse ∧
    (doHandshake env kp store socket).store = store ∧
    (doHandshake env kp store socket).socket = socket := by
  simp only [doHandshake, h1, h2, h3]
  rw [if_pos h4]
  simp

/-- Witness for C7: a concrete run whose server hello has an empty
ephemeral key. -/
theorem c7_witness :
    (doHandshake shortEphEnv testKP emptyStore none).error =
      some .missingPartsOfHandshakeResponse ∧
    (doHandshake shortEphEnv testKP emptyStore none).store = emptyStore ∧
    (doHandshake shortEphEnv testKP emptyStore none).socket = none :=
  c7_response_shape_validation shortEphEnv testKP emptyStore none [1] [2]
    ⟨[], some [3], some [4]⟩ rfl rfl rfl (Or.inl (by decide))

/-- C1: once the certificate details parse, a certified key that differs
from the decrypted server static makes doHandshake return the distinct
certificate-mismatch error; the store and the socket are untouched and
nh.Finish is never called, so no transport cipher states are produced. -/
theorem c1_certificate_mismatch
    (env : HandshakeEnv ν σ) (kp : KeyPair) (store : DeviceStore) (socket : Option ν)
    (d r sd certD : Bytes) (hello : ServerHello) (ns3 ns4 ns5 ns6 : σ)
    (cert : NoiseCert) (cd : NoiseCertDetails)
    (h1 : env.marshalClientHello kp.pub = .ok d)
    (h2 : env.sendAndReceive d = .ok r)
    (h3 : env.unmarshalResponse r = .ok hello)
    (h4 : ¬(hello.ephemeral.length ≠ 32 ∨ hello.static = none ∨ hello.payload = none))
    (h5 : env.mix (env.authenticate (env.authenticate env.start kp.pub) hello.ephemeral)
            kp.priv hello.ephemeral = .ok ns3)
    (h6 : env.decrypt ns3 (hello.static.getD []) = .ok (sd, ns4))
    (h7 : ¬ sd.length ≠ 32)
    (h8 : env.mix ns4 kp.priv sd = .ok ns5)
    (h9 : env.decrypt ns5 (hello.payload.getD []) = .ok (certD, ns6))
    (h10 : env.unmarshalCert certD = .ok cert)
    (h11 : ¬(cert.details = none ∨ cert.signature = none))
    (h12 : env.unmarshalCertDetails (cert.details.getD []) = .ok cd)
    (h13 : cd.key ≠ sd) :
    (doHandshake env kp store socket).error = some .certKeyMismatch ∧
    (doHandshake env kp store socket).store = store ∧
    (doHandshake env kp store socket).socket = socket ∧
    HSEvent.finish ∉ (doHandshake env kp store socket).events := by
  simp only [doHandshake, h1, h2, h3, h5, h6, h8, h9, h10, h12]
  rw [if_neg h4, if_neg h7, if_neg h11, if_pos h13]
  simp

/-- Witness for C1: a concrete run whose certificate certifies [7] while the
decrypted static is 32 zero bytes. -/
theorem c1_witness :
    (doHandshake mismatchEnv testKP emptyStore none).error = some .certKeyMismatch ∧
    (doHandshake mismatchEnv testKP emptyStore none).store = emptyStore ∧
    (doHandshake mismatchEnv testKP emptyStore none).socket = none ∧
    HSEvent.finish ∉ (doHandshake mismatchEnv testKP emptyStore none).events :=
  c1_certificate_mismatch mismatchEnv testKP emptyStore none [1] [2] zeros32 zeros32
    ⟨zeros32, some [3], some [4]⟩ () () () () ⟨some [5], some [6]⟩ ⟨[7]⟩
    rfl rfl rfl (by decide) rfl rfl (by decide) rfl rfl rfl (by decide) rfl (by decide)

set_option maxHeartbeats 3200000

/-- C6: on every error return of doHandshake the socket is never assigned
(cli.socket keeps its prior value), and an error raised at or before the
decryption of the server static ciphertext additionally leaves every store
field untouched. -/
theorem c6_error_frame
    (env : HandshakeEnv ν σ) (kp : KeyPair) (store : DeviceStore) (socket : Option ν) :
    ∀ res, res = doHandshake env kp store socket →
      ∀ e, res.error = some e →
        res.socket = socket ∧ (e.isEarly = true → res.store = store) := by
  intro res hres
  simp only [doHandshake, advFinish] at hres
  repeat' split at hres
  all_goals subst hres
  all_goals intro e he
  all_goals first
    | exact Option.noConfusion he
    | (injection he with he; subst he; exact ⟨rfl, by simp [HSError.isEarly]⟩)

set_option maxHeartbeats 200000

/-- Witness for C6: a concrete run failing at the frame exchange. -/
theorem c6_witness :
    (doHandshake failSendEnv testKP emptyStore none).socket = none ∧
    ((HSError.sendHandshakeMessage "io").isEarly = true →
      (doHandshake failSendEnv testKP emptyStore none).store = emptyStore) :=
  c6_error_frame failSendEnv testKP emptyStore none
    (doHandshake failSendEnv testKP emptyStore none) rfl
    (.sendHandshakeMessage "io") rfl

/-- C2 counterexample: in a completed concrete run from a fresh store, the
encryption of the client static public key is event 5 and the
mix_shared_secret(noise_priv, server_ephemeral) call is event 6 — the mix
happens strictly AFTER the encryption, refuting the claimed order. -/
theorem c2_counterexample_encrypt_precedes_mix :
    emptyRun.error = none ∧
    emptyRun.events.indexOf HSEvent.encryptStatic = 5 ∧
    emptyRun.events.indexOf
      (HSEvent.mixSharedSecret (List.replicate 32 2) zeros32) = 6 ∧
    emptyRun.events.length = 14 := by decide

/-- C2 amended: in every run that reaches the final message,
mix_shared_secret(own_static.priv, server.ephemeral) is performed
immediately AFTER the client static public key is encrypted, and before the
client payload is encrypted. -/
theorem c2_amended_mix_between_encrypts
    (env : HandshakeEnv ν σ) (kp : KeyPair) (store : DeviceStore) (socket : Option ν)
    (d r sd certD payloadBytes data2 : Bytes) (hello : ServerHello)
    (ns3 ns4 ns5 ns6 ns8 : σ) (cert : NoiseCert) (cd : NoiseCertDetails) (ns : ν)
    (h1 : env.marshalClientHello kp.pub = .ok d)
    (h2 : env.sendAndReceive d = .ok r)
    (h3 : env.unmarshalResponse r = .ok hello)
    (h4 : ¬(hello.ephemeral.length ≠ 32 ∨ hello.static = none ∨ hello.payload = none))
    (h5 : env.mix (env.authenticate (env.authenticate env.start kp.pub) hello.ephemeral)
            kp.priv hello.ephemeral = .ok ns3)
    (h6 : env.decrypt ns3 (hello.static.getD []) = .ok (sd, ns4))
    (h7 : ¬ sd.length ≠ 32)
    (h8 : env.mix ns4 kp.priv sd = .ok ns5)
    (h9 : env.decrypt ns5 (hello.payload.getD []) = .ok (certD, ns6))
    (h10 : env.unmarshalCert certD = .ok cert)
    (h11 : ¬(cert.details = none ∨ cert.signature = none))
    (h12 : env.unmarshalCertDetails (cert.details.getD []) = .ok cd)
    (h13 : ¬ cd.key ≠ sd)
    (h14 : env.mix (env.encrypt ns6 (store.noiseKey.getD env.newNoiseKey).pub).2
             (store.noiseKey.getD env.newNoiseKey).priv hello.ephemeral = .ok ns8)
    (h15 : env.marshalClientPayload (materialized env store) = .ok payloadBytes)
    (h16 : env.marshalClientFinish (env.encrypt ns6 (store.noiseKey.getD env.newNoiseKey).pub).1
             (env.encrypt ns8 payloadBytes).1 = .ok data2)
    (h17 : env.sendFrame data2 = .ok ())
    (h18 : env.finish (env.encrypt ns8 payloadBytes).2 = .ok ns) :
    ∃ l1 l2 l3, (doHandshake env kp store socket).events =
      l1 ++ [HSEvent.encryptStatic,
             HSEvent.mixSharedSecret (store.noiseKey.getD env.newNoiseKey).priv
               hello.ephemeral]
         ++ l2 ++ [HSEvent.encryptPayload] ++ l3 := by
  rw [doHandshake_success env kp store socket d r sd certD payloadBytes data2 hello
        ns3 ns4 ns5 ns6 ns8 cert cd ns
        h1 h2 h3 h4 h5 h6 h7 h8 h9 h10 h11 h12 h13 h14 h15 h16 h17 h18]
  refine ⟨[HSEvent.authenticate kp.pub, .authenticate hello.ephemeral,
           .mixSharedSecret kp.priv hello.ephemeral, .mixSharedSecret kp.priv sd]
           ++ (if store.noiseKey = none then [.genNoiseKey] else []),
          (if store.identityKey = none then [.genIdentityKey] else [])
           ++ (if store.signedPreKey = none then [.genSignedPreKey] else [])
           ++ (if store.registrationID = 0 then [.genRegistrationID] else []),
          ?_, ?_⟩
  · exact [HSEvent.sendClientFinish, HSEvent.finish]
      ++ (match (materialized env store).advSecretKey with
          | some _ => ([] : List HSEvent)
          | none => [HSEvent.genAdvSecret])
  · cases hA : (materialized env store).advSecretKey with
    | some a => simp [advFinish, hA, successEvents]
    | none =>
      cases hB : env.advRandom with
      | error eB => simp [advFinish, hA, hB, successEvents]
      | ok b => simp [advFinish, hA, hB, successEvents]

/-- Witness for C2's amended theorem: the concrete benign run. -/
theorem c2_amended_witness :
    ∃ l1 l2 l3, (doHandshake testEnv testKP emptyStore none).events =
      l1 ++ [HSEvent.encryptStatic,
             HSEvent.mixSharedSecret (emptyStore.noiseKey.getD testEnv.newNoiseKey).priv
               (ServerHello.ephemeral ⟨zeros32, some [3], some [4]⟩)]
         ++ l2 ++ [HSEvent.encryptPayload] ++ l3 :=
  c2_amended_mix_between_encrypts testEnv testKP emptyStore none
    [1] [2] zeros32 zeros32 [8] [9] ⟨zeros32, some [3], some [4]⟩
    () () () () () ⟨some [5], some [6]⟩ ⟨zeros32⟩ ()
    rfl rfl rfl (by decide) rfl rfl (by decide) rfl rfl rfl (by decide) rfl
    (by decide) rfl rfl rfl rfl rfl

/-- C3 counterexample: in a completed concrete run from a fresh store the
final handshake message is sent at event 11 and nh.Finish is called at
event 12, but the adv secret is only generated at event 13 — after the
final message was encrypted and sent, refuting that all five pieces of key
material are ensured before sending. -/
theorem c3_counterexample_adv_generated_after_send :
    emptyRun.error = none ∧
    emptyRun.events.indexOf HSEvent.sendClientFinish = 11 ∧
    emptyRun.events.indexOf HSEvent.finish = 12 ∧
    emptyRun.events.indexOf HSEvent.genAdvSecret = 13 ∧
    emptyRun.events.length = 14 := by decide

/-- C3 amended: before the final handshake message is encrypted and sent,
doHandshake ensures the noise keypair, identity keypair, signed prekey and
registration id exist, generating each missing one exactly once behind a
presence check; the 32-byte adv secret is also generated at most once behind
a presence check, but only AFTER the final message is sent and the noise
socket is created.  The trace equality (see successEvents) and the final
store shape exhibit both the ordering and the guards. -/
theorem c3_amended_lazy_generation
    (env : HandshakeEnv ν σ) (kp : KeyPair) (store : DeviceStore) (socket : Option ν)
    (d r sd certD payloadBytes data2 advB : Bytes) (hello : ServerHello)
    (ns3 ns4 ns5 ns6 ns8 : σ) (cert : NoiseCert) (cd : NoiseCertDetails) (ns : ν)
    (h1 : env.marshalClientHello kp.pub = .ok d)
    (h2 : env.sendAndReceive d = .ok r)
    (h3 : env.unmarshalResponse r = .ok hello)
    (h4 : ¬(hello.ephemeral.length ≠ 32 ∨ hello.static = none ∨ hello.payload = none))
    (h5 : env.mix (env.authenticate (env.authenticate env.start kp.pub) hello.ephemeral)
            kp.priv hello.ephemeral = .ok ns3)
    (h6 : env.decrypt ns3 (hello.static.getD []) = .ok (sd, ns4))
    (h7 : ¬ sd.length ≠ 32)
    (h8 : env.mix ns4 kp.priv sd = .ok ns5)
    (h9 : env.decrypt ns5 (hello.payload.getD []) = .ok (certD, ns6))
    (h10 : env.unmarshalCert certD = .ok cert)
    (h11 : ¬(cert.details = none ∨ cert.signature = none))
    (h12 : env.unmarshalCertDetails (cert.details.getD []) = .ok cd)
    (h13 : ¬ cd.key ≠ sd)
    (h14 : env.mix (env.encrypt ns6 (store.noiseKey.getD env.newNoiseKey).pub).2
             (store.noiseKey.getD env.newNoiseKey).priv hello.ephemeral = .ok ns8)
    (h15 : env.marshalClientPayload (materialized env store) = .ok payloadBytes)
    (h16 : env.marshalClientFinish (env.encrypt ns6 (store.noiseKey.getD env.newNoiseKey).pub).1
             (env.encrypt ns8 payloadBytes).1 = .ok data2)
    (h17 : env.sendFrame data2 = .ok ())
    (h18 : env.finish (env.encrypt ns8 payloadBytes).2 = .ok ns)
    (h19 : store.advSecretKey = none → env.advRandom = .ok advB) :
    (doHandshake env kp store socket).events =
      successEvents env kp store hello sd
        ++ (if store.advSecretKey = none then [HSEvent.genAdvSecret] else []) ∧
    (doHandshake env kp store socket).store =
      {materialized env store with
        advSecretKey := some (store.advSecretKey.getD advB)} ∧
    (doHandshake env kp store socket).error = none := by
  rw [doHandshake_success env kp store socket d r sd certD payloadBytes data2 hello
        ns3 ns4 ns5 ns6 ns8 cert cd ns
        h1 h2 h3 h4 h5 h6 h7 h8 h9 h10 h11 h12 h13 h14 h15 h16 h17 h18]
  cases hA : store.advSecretKey with
  | some a => simp [advFinish, materialized, hA]
  | none =>
    have hB := h19 hA
    simp [advFinish, materialized, hA, hB]

/-- Witness for C3's amended theorem: the concrete benign run from a fresh
store. -/
theorem c3_amended_witness :
    (doHandshake testEnv testKP emptyStore none).events =
      successEvents testEnv testKP emptyStore ⟨zeros32, some [3], some [4]⟩ zeros32
        ++ (if emptyStore.advSecretKey = none then [HSEvent.genAdvSecret] else []) ∧
    (doHandshake testEnv testKP emptyStore none).store =
      {materialized testEnv emptyStore with
        advSecretKey := some (emptyStore.advSecretKey.getD (List.replicate 32 9))} ∧
    (doHandshake testEnv testKP emptyStore none).error = none :=
  c3_amended_lazy_generation testEnv testKP emptyStore none
    [1] [2] zeros32 zeros32 [8] [9] (List.replicate 32 9)
    ⟨zeros32, some [3], some [4]⟩
    () () () () () ⟨some [5], some [6]⟩ ⟨zeros32⟩ ()
    rfl rfl rfl (by decide) rfl rfl (by decide) rfl rfl rfl (by decide) rfl
    (by decide) rfl rfl rfl rfl rfl (fun _ => rfl)

/-- Every step index committed or attempted by the loop is at least the
starting version. -/
theorem upgradeLoop_ge (env : MigEnv) :
    ∀ (l : List (α → Except String α)) (v : Nat) (c : MigDB α) (j : Nat),
      j ∈ (upgradeLoop env v l c).2.1 → v ≤ j := by
  intro l
  induction l with
  | nil => intro v c j hj; simp [upgradeLoop] at hj
  | cons f rest ih =>
    intro v c j hj
    by_cases hb : env.beginFails v = true
    · simp [upgradeLoop, hb] at hj
    · cases hf : f c.schema with
      | error e => simp [upgradeLoop, hb, hf] at hj
      | ok s2 =>
        by_cases hsv : env.setVersionFails v = true
        · simp [upgradeLoop, hb, hf, hsv] at hj
        · by_cases hc : env.commitFails v = true
          · simp [upgradeLoop, hb, hf, hsv, hc] at hj
          · simp only [upgradeLoop, hb, hf, hsv, hc, Bool.false_eq_true,
              if_false, List.mem_cons] at hj
            rcases hj with rfl | hj
            · exact Nat.le_refl j
            · exact Nat.le_of_succ_le (ih (v + 1) _ j hj)

/-- When Begin/setVersion/Commit never fail, the loop on `pre ++ rest`
commits all of `pre` (provided the steps themselves succeed, producing
schema `s`) and continues on `rest` with the version counter advanced. -/
theorem upgradeLoop_applySteps (env : MigEnv)
    (henv : ∀ i, env.beginFails i = false ∧ env.setVersionFails i = false ∧
      env.commitFails i = false) :
    ∀ (pre rest : List (α → Except String α)) (v : Nat) (c : MigDB α) (s : α),
      applySteps pre c.schema = .ok s →
      upgradeLoop env v (pre ++ rest) c =
        ((upgradeLoop env (v + pre.length) rest
            {schema := s,
             versionRow := if pre.isEmpty then c.versionRow else some (v + pre.length),
             versionTableExists := c.versionTableExists}).1,
         List.range' v pre.length ++
           (upgradeLoop env (v + pre.length) rest
             {schema := s,
              versionRow := if pre.isEmpty then c.versionRow else some (v + pre.length),
              versionTableExists := c.versionTableExists}).2.1,
         (upgradeLoop env (v + pre.length) rest
            {schema := s,
             versionRow := if pre.isEmpty then c.versionRow else some (v + pre.length),
             versionTableExists := c.versionTableExists}).2.2) := by
  intro pre
  induction pre with
  | nil =>
    intro rest v c s hs
    simp only [applySteps, Except.ok.injEq] at hs
    subst hs
    simp [List.range']
  | cons f pre ih =>
    intro rest v c s hs
    simp only [applySteps] at hs
    cases hf : f c.schema with
    | error e => rw [hf] at hs; exact absurd hs (by simp)
    | ok s2 =>
      simp only [hf] at hs
      have hb := (henv v).1
      have hsv := (henv v).2.1
      have hc := (henv v).2.2
      simp only [List.cons_append, upgradeLoop, hb, hsv, hc, hf,
        Bool.false_eq_true, if_false, List.append_eq]
      rw [ih rest (v + 1)
            {schema := s2, versionRow := some (v + 1),
             versionTableExists := c.versionTableExists} s hs]
      by_cases hp : pre.isEmpty = true
      · rw [List.isEmpty_iff] at hp
        subst hp
        simp [List.range']
      · simp only [Bool.not_eq_true] at hp
        simp only [hp, List.isEmpty_cons, Bool.false_eq_true, if_false,
          List.length_cons]
        have h1 : v + 1 + pre.length = v + (pre.length + 1) := by omega
        rw [h1, List.range'_succ v pre.length 1]
        simp

/-- A loop run that returns no error either had nothing to do or leaves the
version row at start + number of steps. -/
theorem upgradeLoop_none_version (env : MigEnv) :
    ∀ (l : List (α → Except String α)) (v : Nat) (c c1 : MigDB α) (comm : List Nat),
      upgradeLoop env v l c = (c1, comm, none) →
      (c1 = c ∧ l = []) ∨ c1.versionRow = some (v + l.length) := by
  intro l
  induction l with
  | nil => intro v c c1 comm h; simp [upgradeLoop] at h; exact Or.inl ⟨h.1.symm, rfl⟩
  | cons f rest ih =>
    intro v c c1 comm h
    by_cases hb : env.beginFails v = true
    · simp [upgradeLoop, hb] at h
    · cases hf : f c.schema with
      | error e => simp [upgradeLoop, hb, hf] at h
      | ok s2 =>
        by_cases hsv : env.setVersionFails v = true
        · simp [upgradeLoop, hb, hf, hsv] at h
        · by_cases hc : env.commitFails v = true
          · simp [upgradeLoop, hb, hf, hsv, hc] at h
          · simp only [upgradeLoop, hb, hf, hsv, hc, Bool.false_eq_true,
              if_false, Prod.mk.injEq] at h
            obtain ⟨h1, _, h3⟩ := h
            have hrec : upgradeLoop env (v + 1) rest
                {schema := s2, versionRow := some (v + 1),
                 versionTableExists := c.versionTableExists} =
                ((upgradeLoop env (v + 1) rest
                    {schema := s2, versionRow := some (v + 1),
                     versionTableExists := c.versionTableExists}).1,
                 (upgradeLoop env (v + 1) rest
                    {schema := s2, versionRow := some (v + 1),
                     versionTableExists := c.versionTableExists}).2.1,
                 none) := by rw [← h3]
            refine Or.inr ?_
            simp only [List.length_cons]
            rcases ih (v + 1) _ _ _ hrec with ⟨hcl, hrest⟩ | hver
            · subst hrest
              rw [← h1, hcl]
              simp
            · rw [← h1, hver]
              simp only [Option.some.injEq]
              omega

/-- C5: running Upgrade twice in succession with the same steps list applies
zero steps the second time (no step index is committed) and leaves the
persisted version counter unchanged, whatever the second run's environment
does. -/
theorem c5_upgrade_idempotent
    (env1 env2 : MigEnv) (steps : List (α → Except String α)) (c c1 : MigDB α)
    (comm : List Nat) (h : upgrade env1 steps c = (c1, comm, none)) :
    (upgrade env2 steps c1).2.1 = [] ∧
    (upgrade env2 steps c1).1.versionRow = c1.versionRow := by
  by_cases hcf : env1.createTableFails = true
  · simp [upgrade, getVersion, hcf] at h
  · simp only [Bool.not_eq_true] at hcf
    simp only [upgrade, getVersion, hcf, Bool.false_eq_true, if_false] at h
    by_cases hcf2 : env2.createTableFails = true
    · simp [upgrade, getVersion, hcf2]
    · simp only [Bool.not_eq_true] at hcf2
      simp only [upgrade, getVersion, hcf2, Bool.false_eq_true, if_false]
      rcases upgradeLoop_none_version env1 _ _ _ _ _ h with ⟨hcl, hdrop⟩ | hver
      · subst hcl
        simp only at hdrop ⊢
        rw [hdrop]
        simp [upgradeLoop]
      · simp only [hver]
        have hbig : steps.length ≤
            (match c.versionRow with | some x => x | none => 0) +
              (steps.drop (match c.versionRow with | some x => x | none => 0)).length := by
          rw [List.length_drop]
          omega
        rw [List.drop_eq_nil_of_le hbig]
        simp [upgradeLoop, hver]

/-- Witness for C5: after a completed run of the released Upgrades list the
next run commits nothing and keeps the version counter at 1. -/
theorem c5_witness :
    (upgrade noFailEnv Upgrades (⟨whatsmeowSchema, some 1, true⟩ : MigDB Schema)).2.1 = [] ∧
    (upgrade noFailEnv Upgrades
        (⟨whatsmeowSchema, some 1, true⟩ : MigDB Schema)).1.versionRow = some 1 :=
  c5_upgrade_idempotent noFailEnv noFailEnv Upgrades emptyMigDB
    ⟨whatsmeowSchema, some 1, true⟩ [0] (by decide)

/-- C4: a failing step aborts only its own transaction.  With the version
counter reading `v` and the pending steps being `pre ++ f :: post` where all
of `pre` succeeds and `f` fails with `e`: the run returns the step error,
the schema keeps exactly the commits of `pre`, the committed indices are
v..v+|pre|-1, the version row stays at the last committed value (v+|pre|
after a commit, the original row otherwise), and any subsequent run only
attempts step indices ≥ v+|pre| — a committed step is never reapplied. -/
theorem c4_step_failure_resume
    (env : MigEnv) (steps pre post : List (α → Except String α))
    (f : α → Except String α) (c : MigDB α) (s : α) (e : String) (v : Nat)
    (henv : ∀ i, env.beginFails i = false ∧ env.setVersionFails i = false ∧
      env.commitFails i = false)
    (hcreate : env.createTableFails = false)
    (hv : (match c.versionRow with | some x => x | none => 0) = v)
    (hdrop : steps.drop v = pre ++ f :: post)
    (hpre : applySteps pre c.schema = .ok s)
    (hfail : f s = .error e) :
    upgrade env steps c =
      ({schema := s,
        versionRow := if pre.isEmpty then c.versionRow else some (v + pre.length),
        versionTableExists := true},
       List.range' v pre.length, some (.step (v + pre.length) e)) ∧
    ∀ env2 j, j ∈ (upgrade env2 steps (upgrade env steps c).1).2.1 →
      v + pre.length ≤ j := by
  have hmain : upgrade env steps c =
      ({schema := s,
        versionRow := if pre.isEmpty then c.versionRow else some (v + pre.length),
        versionTableExists := true},
       List.range' v pre.length, some (.step (v + pre.length) e)) := by
    simp only [upgrade, getVersion, hcreate, Bool.false_eq_true, if_false, hv, hdrop]
    rw [upgradeLoop_applySteps env henv pre (f :: post) v
          {c with versionTableExists := true} s hpre]
    simp [upgradeLoop, (henv (v + pre.length)).1, hfail]
  refine ⟨hmain, ?_⟩
  intro env2 j hj
  rw [hmain] at hj
  by_cases hcf2 : env2.createTableFails = true
  · simp [upgrade, getVersion, hcf2] at hj
  · simp only [Bool.not_eq_true] at hcf2
    simp only [upgrade, getVersion, hcf2, Bool.false_eq_true, if_false] at hj
    by_cases hp : pre.isEmpty = true
    · rw [List.isEmpty_iff] at hp
      subst hp
      simp only [List.isEmpty_nil, if_true, List.length_nil, Nat.add_zero] at hj ⊢
      rw [hv] at hj
      exact upgradeLoop_ge env2 _ _ _ _ hj
    · simp only [Bool.not_eq_true] at hp
      simp only [hp, Bool.false_eq_true, if_false] at hj
      exact upgradeLoop_ge env2 _ _ _ _ hj

/-- Witness for C4: the released step succeeds, an appended failing step
aborts; the counter reads 1, only index 0 was committed, and the error of
step 1 is returned. -/
theorem c4_witness :
    upgrade noFailEnv twoSteps emptyMigDB =
      ({schema := whatsmeowSchema, versionRow := some 1, versionTableExists := true},
       [0], some (.step 1 "boom")) :=
  (c4_step_failure_resume noFailEnv twoSteps [upgradeV1] [] failingStep emptyMigDB
    whatsmeowSchema "boom" 0 (fun _ => ⟨rfl, rfl, rfl⟩) rfl rfl rfl rfl rfl).1

/-- C10: getVersion returns an error exactly when creating the version table
fails; when the version table has no scannable row it silently returns
version 0 with no error, so a subsequent Upgrade run starts the loop at
index 0 with every migration step pending. -/
theorem c10_getVersion_missing_row
    (env : MigEnv) (c : MigDB α) :
    ((getVersion env c).2 = .error .createVersionTable ↔ env.createTableFails = true) ∧
    (c.versionRow = none → env.createTableFails = false →
      (getVersion env c).2 = .ok 0 ∧
      ∀ steps : List (α → Except String α),
        upgrade env steps c =
          upgradeLoop env 0 steps {c with versionTableExists := true}) := by
  constructor
  · by_cases hcf : env.createTableFails = true
    · simp [getVersion, hcf]
    · simp [getVersion, hcf]
  · intro hrow hcf
    constructor
    · simp [getVersion, hcf, hrow]
    · intro steps
      simp [upgrade, getVersion, hcf, hrow]

/-- Witness for C10: a database with the full schema but no version row. -/
theorem c10_witness :
    ((getVersion noFailEnv noRowDB).2 = .error .createVersionTable ↔
      noFailEnv.createTableFails = true) ∧
    ((getVersion noFailEnv noRowDB).2 = .ok 0 ∧
     upgrade noFailEnv Upgrades noRowDB =
       upgradeLoop noFailEnv 0 Upgrades {noRowDB with versionTableExists := true}) :=
  ⟨(c10_getVersion_missing_row noFailEnv noRowDB).1,
   ((c10_getVersion_missing_row noFailEnv noRowDB).2 rfl rfl).1,
   ((c10_getVersion_missing_row noFailEnv noRowDB).2 rfl rfl).2 Upgrades⟩

/-- C8 counterexample: the adv secret column (adv_key) of whatsmeow_device
carries no length CHECK, and a device row whose adv_key holds only 5 bytes
passes every write-time check — the write is accepted, not rejected —
refuting that every fixed-size byte field, the adv secret included, has an
exact-length invariant enforced at write time. -/
theorem c8_counterexample_adv_key_unchecked :
    hasLenCheck whatsmeowSchema .device "adv_key" 32 = false ∧
    lenCheckOf whatsmeowSchema .device "adv_key" = some none ∧
    checkRow deviceTable shortAdvRow = true ∧
    getVal shortAdvRow "adv_key" = some (.bytes [1, 2, 3, 4, 5]) := by decide

/-- C8 amended: every fixed-size byte field of the persisted schema EXCEPT
the adv secret carries an exact-length CHECK — 32 bytes for keys and MACs
(noise key, identity key, signed prekey, prekeys, trusted identities,
index/value MACs), 64 bytes for signatures, 128 bytes for the app-state
hash — and a write violating one of them is rejected, as the 5-byte noise
key shows; the adv secret (adv_key) is only NOT NULL, with no length
constraint. -/
theorem c8_amended_length_checks :
    hasLenCheck whatsmeowSchema .device "noise_key" 32 = true ∧
    hasLenCheck whatsmeowSchema .device "identity_key" 32 = true ∧
    hasLenCheck whatsmeowSchema .device "signed_pre_key" 32 = true ∧
    hasLenCheck whatsmeowSchema .device "signed_pre_key_sig" 64 = true ∧
    hasLenCheck whatsmeowSchema .device "adv_account_sig" 64 = true ∧
    hasLenCheck whatsmeowSchema .device "adv_device_sig" 64 = true ∧
    hasLenCheck whatsmeowSchema .identityKeys "identity" 32 = true ∧
    hasLenCheck whatsmeowSchema .preKeys "key" 32 = true ∧
    hasLenCheck whatsmeowSchema .appStateVersion "hash" 128 = true ∧
    hasLenCheck whatsmeowSchema .appStateMutationMacs "index_mac" 32 = true ∧
    hasLenCheck whatsmeowSchema .appStateMutationMacs "value_mac" 32 = true ∧
    checkRow deviceTable shortNoiseRow = false ∧
    checkRow deviceTable shortAdvRow = true := by decide

set_option maxRecDepth 8192

/-- Rows of whatsmeow_device surviving the cascade. -/
theorem cascadeRows_device (inst : Inst) (J : SqlValue) :
    deleteDevice inst J .device =
      (inst .device).filter (fun r => !(decide (getVal r "jid" = some J))) := rfl

/-- Rows of whatsmeow_identity_keys surviving the cascade. -/
theorem cascadeRows_identityKeys (inst : Inst) (J : SqlValue) :
    deleteDevice inst J .identityKeys =
      (inst .identityKeys).filter (fun r =>
        !(((inst .device).filter (fun x => decide (getVal x "jid" = some J))).any
            (fun v => decide ([getVal r "our_jid"] = [getVal v "jid"])))) := rfl

/-- Rows of whatsmeow_pre_keys surviving the cascade. -/
theorem cascadeRows_preKeys (inst : Inst) (J : SqlValue) :
    deleteDevice inst J .preKeys =
      (inst .preKeys).filter (fun r =>
        !(((inst .device).filter (fun x => decide (getVal x "jid" = some J))).any
            (fun v => decide ([getVal r "jid"] = [getVal v "jid"])))) := rfl

/-- Rows of whatsmeow_sessions surviving the cascade. -/
theorem cascadeRows_sessions (inst : Inst) (J : SqlValue) :
    deleteDevice inst J .sessions =
      (inst .sessions).filter (fun r =>
        !(((inst .device).filter (fun x => decide (getVal x "jid" = some J))).any
            (fun v => decide ([getVal r "our_jid"] = [getVal v "jid"])))) := rfl

/-- Rows of whatsmeow_sender_keys surviving the cascade. -/
theorem cascadeRows_senderKeys (inst : Inst) (J : SqlValue) :
    deleteDevice inst J .senderKeys =
      (inst .senderKeys).filter (fun r =>
        !(((inst .device).filter (fun x => decide (getVal x "jid" = some J))).any
            (fun v => decide ([getVal r "our_jid"] = [getVal v "jid"])))) := rfl

/-- Rows of whatsmeow_app_state_sync_keys surviving the cascade. -/
theorem cascadeRows_appStateSyncKeys (inst : Inst) (J : SqlValue) :
    deleteDevice inst J .appStateSyncKeys =
      (inst .appStateSyncKeys).filter (fun r =>
        !(((inst .device).filter (fun x => decide (getVal x "jid" = some J))).any
            (fun v => decide ([getVal r "jid"] = [getVal v "jid"])))) := rfl

/-- Rows of whatsmeow_app_state_version surviving the cascade. -/
theorem cascadeRows_appStateVersion (inst : Inst) (J : SqlValue) :
    deleteDevice inst J .appStateVersion =
      (inst .appStateVersion).filter (fun r =>
        !(((inst .device).filter (fun x => decide (getVal x "jid" = some J))).any
            (fun v => decide ([getVal r "jid"] = [getVal v "jid"])))) := rfl

/-- Rows of whatsmeow_app_state_mutation_macs surviving the cascade: removed
transitively through the deleted whatsmeow_app_state_version rows. -/
theorem cascadeRows_macs (inst : Inst) (J : SqlValue) :
    deleteDevice inst J .appStateMutationMacs =
      (inst .appStateMutationMacs).filter (fun r =>
        !(((inst .appStateVersion).filter (fun p =>
             ((inst .device).filter (fun x => decide (getVal x "jid" = some J))).any
               (fun v => decide ([getVal p "jid"] = [getVal v "jid"])))).any
           (fun v => decide ([getVal r "jid", getVal r "name"] =
                             [getVal v "jid", getVal v "name"])))) := rfl

/-- Rows of whatsmeow_contacts surviving the cascade. -/
theorem cascadeRows_contacts (inst : Inst) (J : SqlValue) :
    deleteDevice inst J .contacts =
      (inst .contacts).filter (fun r =>
        !(((inst .device).filter (fun x => decide (getVal x "jid" = some J))).any
            (fun v => decide ([getVal r "our_jid"] = [getVal v "jid"])))) := rfl

/-- Rows of whatsmeow_chat_settings surviving the cascade. -/
theorem cascadeRows_chatSettings (inst : Inst) (J : SqlValue) :
    deleteDevice inst J .chatSettings =
      (inst .chatSettings).filter (fun r =>
        !(((inst .device).filter (fun x => decide (getVal x "jid" = some J))).any
            (fun v => decide ([getVal r "our_jid"] = [getVal v "jid"])))) := rfl

/-- Rows surviving a cascade keyed through a single-column foreign key to
the deleted device never reference the deleted jid, provided some victim
device row carries that jid. -/
theorem filter_fk_no_victim (J : SqlValue) (rows Vd : List Row) (col : String)
    (d : Row) (hd : d ∈ Vd) (hdJ : getVal d "jid" = some J) :
    ∀ r ∈ rows.filter
        (fun r => !(Vd.any (fun v => decide ([getVal r col] = [getVal v "jid"])))),
      getVal r col ≠ some J := by
  intro r hr hJ
  rw [List.mem_filter] at hr
  obtain ⟨_, hneg⟩ := hr
  have hany : (Vd.any (fun v => decide ([getVal r col] = [getVal v "jid"]))) = true := by
    rw [List.any_eq_true]
    exact ⟨d, hd, by simp [hJ, hdJ]⟩
  rw [hany] at hneg
  simp at hneg

/-- C9: deleting a device row cascades through the declared foreign keys:
afterwards no row of any dependent table — identity keys, prekeys, sessions,
sender keys, app-state sync keys, app-state versions, mutation MACs
(transitively through the version table), contacts, chat settings — is keyed
to the deleted jid, assuming the device row existed and the mutation-MAC
rows satisfied their foreign key into the version table. -/
theorem c9_cascade_delete_device (inst : Inst) (J : SqlValue)
    (hdev : ∃ d ∈ inst .device, getVal d "jid" = some J)
    (hmacs : ∀ r ∈ inst .appStateMutationMacs, getVal r "jid" = some J →
      ∃ p ∈ inst .appStateVersion, getVal p "jid" = some J ∧
        getVal p "name" = getVal r "name") :
    (∀ r ∈ deleteDevice inst J .device, getVal r "jid" ≠ some J) ∧
    (∀ r ∈ deleteDevice inst J .identityKeys, getVal r "our_jid" ≠ some J) ∧
    (∀ r ∈ deleteDevice inst J .preKeys, getVal r "jid" ≠ some J) ∧
    (∀ r ∈ deleteDevice inst J .sessions, getVal r "our_jid" ≠ some J) ∧
    (∀ r ∈ deleteDevice inst J .senderKeys, getVal r "our_jid" ≠ some J) ∧
    (∀ r ∈ deleteDevice inst J .appStateSyncKeys, getVal r "jid" ≠ some J) ∧
    (∀ r ∈ deleteDevice inst J .appStateVersion, getVal r "jid" ≠ some J) ∧
    (∀ r ∈ deleteDevice inst J .appStateMutationMacs, getVal r "jid" ≠ some J) ∧
    (∀ r ∈ deleteDevice inst J .contacts, getVal r "our_jid" ≠ some J) ∧
    (∀ r ∈ deleteDevice inst J .chatSettings, getVal r "our_jid" ≠ some J) := by
  obtain ⟨d, hd, hdJ⟩ := hdev
  have hdV : d ∈ (inst .device).filter (fun x => decide (getVal x "jid" = some J)) := by
    rw [List.mem_filter]
    exact ⟨hd, by simp [hdJ]⟩
  refine ⟨?_, ?_, ?_, ?_, ?_, ?_, ?_, ?_, ?_, ?_⟩
  · rw [cascadeRows_device]
    intro r hr hJ
    rw [List.mem_filter] at hr
    simp [hJ] at hr
  · rw [cascadeRows_identityKeys]
    exact filter_fk_no_victim J _ _ "our_jid" d hdV hdJ
  · rw [cascadeRows_preKeys]
    exact filter_fk_no_victim J _ _ "jid" d hdV hdJ
  · rw [cascadeRows_sessions]
    exact filter_fk_no_victim J _ _ "our_jid" d hdV hdJ
  · rw [cascadeRows_senderKeys]
    exact filter_fk_no_victim J _ _ "our_jid" d hdV hdJ
  · rw [cascadeRows_appStateSyncKeys]
    exact filter_fk_no_victim J _ _ "jid" d hdV hdJ
  · rw [cascadeRows_appStateVersion]
    exact filter_fk_no_victim J _ _ "jid" d hdV hdJ
  · rw [cascadeRows_macs]
    intro r hr hJ
    rw [List.mem_filter] at hr
    obtain ⟨hrm, hneg⟩ := hr
    obtain ⟨p, hp, hpJ, hpname⟩ := hmacs r hrm hJ
    have hpV : p ∈ (inst .appStateVersion).filter (fun q =>
        ((inst .device).filter (fun x => decide (getVal x "jid" = some J))).any
          (fun v => decide ([getVal q "jid"] = [getVal v "jid"]))) := by
      rw [List.mem_filter]
      refine ⟨hp, ?_⟩
      rw [List.any_eq_true]
      exact ⟨d, hdV, by simp [hpJ, hdJ]⟩
    have hany : (((inst .appStateVersion).filter (fun q =>
        ((inst .device).filter (fun x => decide (getVal x "jid" = some J))).any
          (fun v => decide ([getVal q "jid"] = [getVal v "jid"])))).any
        (fun v => decide ([getVal r "jid", getVal r "name"] =
                          [getVal v "jid", getVal v "name"]))) = true := by
      rw [List.any_eq_true]
      exact ⟨p, hpV, by simp [hJ, hpJ, hpname]⟩
    rw [hany] at hneg
    simp at hneg
  · rw [cascadeRows_contacts]
    exact filter_fk_no_victim J _ _ "our_jid" d hdV hdJ
  · rw [cascadeRows_chatSettings]
    exact filter_fk_no_victim J _ _ "our_jid" d hdV hdJ

/-- Witness for C9: deleting device "A" from the concrete instance. -/
theorem c9_witness :
    (∀ r ∈ deleteDevice c9Inst (.text "A") .device, getVal r "jid" ≠ some (.text "A")) ∧
    (∀ r ∈ deleteDevice c9Inst (.text "A") .identityKeys,
      getVal r "our_jid" ≠ some (.text "A")) ∧
    (∀ r ∈ deleteDevice c9Inst (.text "A") .preKeys, getVal r "jid" ≠ some (.text "A")) ∧
    (∀ r ∈ deleteDevice c9Inst (.text "A") .sessions,
      getVal r "our_jid" ≠ some (.text "A")) ∧
    (∀ r ∈ deleteDevice c9Inst (.text "A") .senderKeys,
      getVal r "our_jid" ≠ some (.text "A")) ∧
    (∀ r ∈ deleteDevice c9Inst (.text "A") .appStateSyncKeys,
      getVal r "jid" ≠ some (.text "A")) ∧
    (∀ r ∈ deleteDevice c9Inst (.text "A") .appStateVersion,
      getVal r "jid" ≠ some (.text "A")) ∧
    (∀ r ∈ deleteDevice c9Inst (.text "A") .appStateMutationMacs,
      getVal r "jid" ≠ some (.text "A")) ∧
    (∀ r ∈ deleteDevice c9Inst (.text "A") .contacts,
      getVal r "our_jid" ≠ some (.text "A")) ∧
    (∀ r ∈ deleteDevice c9Inst (.text "A") .chatSettings,
      getVal r "our_jid" ≠ some (.text "A")) :=
  c9_cascade_delete_device c9Inst (.text "A") (by decide) (by decide)
